import Mathlib

/-!
Shallow embedding of the retry executor in `retryer.go` of the
`llaxzi/retryables` package, together with theorems about its retry loop.

Modelling conventions:
- `error` values are an abstract type `ε`; a Go `error` result is `Option ε`
  (`none` is the `nil` error, i.e. success).
- `time.Duration` is an `Int` (a count of nanoseconds); Go `int64`
  multiplication overflow is modelled by `wrap64`.
- `context.Context` is an oracle (`Ctx`) recording what `ctx.Err()` returns
  at each top-of-loop check, whether `ctx.Done()` wins the `select` during
  each inter-attempt wait, and what `ctx.Err()` returns in that branch.
- `rand.Int63n` is modelled by `int63n` over a caller-supplied stream of
  pseudo-random naturals; its documented panic on a non-positive argument
  is modelled as `none`, surfacing as the `panicked` outcome.
- the `io.Writer` logger is an opaque handle of type `L`; the lines written
  to it by `fmt.Fprintf` are collected in the outcome's `logs` field as
  `(attempt + 1, retryCount, err)` triples, mirroring the format string
  "Attempt %d/%d failed: %v".
-/

namespace Retryables

/-- Signed 64-bit wrap-around, the semantics of Go `int64` overflow. -/
def wrap64 (x : Int) : Int := (x + 2 ^ 63) % 2 ^ 64 - 2 ^ 63

/-- Model of `rand.Int63n n` fed by a stream of pseudo-random naturals
indexed by the draw site (the attempt index). Go's `rand.Int63n` panics
when `n <= 0` (modelled as `none`); otherwise it returns a value uniform
in `[0, n)`, modelled as a residue of the stream value. -/
def int63n (randStream : Nat → Nat) (idx : Nat) (n : Int) : Option Int :=
  if n ≤ 0 then none else some ((randStream idx : Int) % n)

/-- Configuration state of a `Retryer` (retryer.go). Durations are `int64`
nanosecond counts modelled as `Int`; the `io.Writer` logger is an opaque
handle of type `L` (lines written to it are collected in the outcome). -/
structure Retryer (ε L : Type) where
  retryConditionFunc : ε → Bool
  retryCount : Int
  baseDelay : Int
  maxDelay : Int
  logger : L

/-- Cancellation oracle for a `context.Context`: `errAtCheck n` is the value
of `ctx.Err()` at the top-of-loop check of iteration `n`; `doneDuringWait n`
tells whether `ctx.Done()` wins the `select` during the wait at the end of
iteration `n`; `errAtWait n` is the value of `ctx.Err()` returned in that
`Done` branch. -/
structure Ctx (ε : Type) where
  errAtCheck : Nat → Option ε
  doneDuringWait : Nat → Bool
  errAtWait : Nat → Option ε

/-- Termination of a `Retry` call: a returned Go `error` value (`none` being
`nil`), or a runtime panic (from `rand.Int63n` on a non-positive argument). -/
inductive RetryResult (ε : Type) where
  | ret (e : Option ε)
  | panicked
deriving DecidableEq

/-- Observable outcome of a `Retry` call: its result, how many times the
operation was invoked, the diagnostic lines written to the logger (as
`(attempt + 1, retryCount, err)` triples), and the attempt indices after
which an inter-attempt wait (the `select`) was entered. -/
structure RetryOutcome (ε : Type) where
  result : RetryResult ε
  invocations : Nat
  logs : List (Nat × Int × ε)
  waits : List Nat
deriving DecidableEq

/-- The backoff computed at retryer.go lines 65-66:
`backoff := r.baseDelay * time.Duration(math.Pow(2, float64(attempt)))`
(`int64` multiplication, wrapping; `math.Pow(2, attempt)` is an exact power
of two for the attempt counts representable here) followed by
`backoff = min(backoff, r.maxDelay)`. -/
def computeBackoff {ε L : Type} (r : Retryer ε L) (attempt : Nat) : Int :=
  min (wrap64 (r.baseDelay * 2 ^ attempt)) r.maxDelay

/-- The body of the `for attempt := 0; attempt < r.retryCount; attempt++`
loop of `Retry` (retryer.go lines 45-79), with `fuel` the number of loop
iterations left (`retryCount - attempt`), `errc` the carried `err` variable,
and accumulators for invocations, log lines and entered waits. -/
def retryLoop {ε L : Type} (r : Retryer ε L) (ctx : Ctx ε) (op : Nat → Option ε)
    (randStream : Nat → Nat) :
    Nat → Nat → Option ε → Nat → List (Nat × Int × ε) → List Nat → RetryOutcome ε
  | 0, _, errc, inv, logs, waits => ⟨.ret errc, inv, logs, waits⟩
  | fuel + 1, attempt, _errc, inv, logs, waits =>
    match ctx.errAtCheck attempt with
    | some c => ⟨.ret (some c), inv, logs, waits⟩
    | none =>
      match op attempt with
      | none => ⟨.ret none, inv + 1, logs, waits⟩
      | some er =>
        if !r.retryConditionFunc er then
          ⟨.ret (some er), inv + 1, logs, waits⟩
        else
          if (attempt : Int) = r.retryCount - 1 then
            ⟨.ret (some er), inv + 1, logs ++ [(attempt + 1, r.retryCount, er)], waits⟩
          else
            match int63n randStream attempt (computeBackoff r attempt) with
            | none =>
              ⟨.panicked, inv + 1, logs ++ [(attempt + 1, r.retryCount, er)], waits⟩
            | some _jitter =>
              if ctx.doneDuringWait attempt then
                ⟨.ret (ctx.errAtWait attempt), inv + 1,
                  logs ++ [(attempt + 1, r.retryCount, er)], waits ++ [attempt]⟩
              else
                retryLoop r ctx op randStream fuel (attempt + 1) (some er) (inv + 1)
                  (logs ++ [(attempt + 1, r.retryCount, er)]) (waits ++ [attempt])

/-- `Retry` (retryer.go lines 44-80) in state-passing form: the method body
reads the receiver's fields and assigns to none of them, so the returned
receiver state equals the input state. The loop runs `retryCount.toNat`
iterations at most (zero when `retryCount ≤ 0`, in which case the carried
`err` variable, still `nil`, is returned). -/
def Retry {ε L : Type} (r : Retryer ε L) (ctx : Ctx ε) (op : Nat → Option ε)
    (randStream : Nat → Nat) : RetryOutcome ε × Retryer ε L :=
  (retryLoop r ctx op randStream r.retryCount.toNat 0 none 0 [] [], r)

/-- `SetConditionFunc` (retryer.go lines 84-86). -/
def SetConditionFunc {ε L : Type} (r : Retryer ε L) (f : ε → Bool) : Retryer ε L :=
  { r with retryConditionFunc := f }

/-- `SetCount` (retryer.go lines 90-92). -/
def SetCount {ε L : Type} (r : Retryer ε L) (n : Int) : Retryer ε L :=
  { r with retryCount := n }

/-- `SetDelay` (retryer.go lines 96-99). -/
def SetDelay {ε L : Type} (r : Retryer ε L) (b m : Int) : Retryer ε L :=
  { r with baseDelay := b, maxDelay := m }

/-- The log lines produced by `d` consecutive failed retryable attempts
starting at 0-based attempt index `a`, under budget `cnt` and error
history `e`. -/
def logsFor {ε : Type} (cnt : Int) (e : Nat → ε) : Nat → Nat → List (Nat × Int × ε)
  | _, 0 => []
  | a, d + 1 => (a + 1, cnt, e a) :: logsFor cnt e (a + 1) d

/-- The wait sites entered by `d` consecutive failed retryable non-final
attempts starting at 0-based attempt index `a`. -/
def waitsFor : Nat → Nat → List Nat
  | _, 0 => []
  | a, d + 1 => a :: waitsFor (a + 1) d

/-- A context that never cancels. -/
def exCtx : Ctx Nat := ⟨fun _ => none, fun _ => false, fun _ => none⟩

/-- A context that is already expired when `Retry` is called: every
`ctx.Err()` check observes error 9. -/
def exCtxCancelled : Ctx Nat := ⟨fun _ => some 9, fun _ => false, fun _ => none⟩

/-- A context that fires during every inter-attempt wait, where `ctx.Err()`
then reports error 4. -/
def exCtxWaitCancel : Ctx Nat := ⟨fun _ => none, fun _ => true, fun _ => some 4⟩

/-- An executor retrying every error, budget 3, baseDelay 100, maxDelay 800. -/
def exRetryer : Retryer Nat Unit := ⟨fun _ => true, 3, 100, 800, ()⟩

/-- An executor retrying every error, with budget 1. -/
def exRetryerOne : Retryer Nat Unit := ⟨fun _ => true, 1, 100, 800, ()⟩

/-- An executor retrying every error, budget 2, with baseDelay 0. -/
def exRetryerZeroDelay : Retryer Nat Unit := ⟨fun _ => true, 2, 0, 800, ()⟩

/-- An executor with budget 4 retrying only the specific error 9. -/
def exRetryerSpecific : Retryer Nat Unit := ⟨fun er => er == 9, 4, 100, 800, ()⟩

/-- Conditions making loop iteration `k` a failed, retryable, non-final
attempt followed by an uninterrupted wait over a positive backoff: the
loop then proceeds to iteration `k + 1`. -/
def StepsThrough {ε L : Type} (r : Retryer ε L) (ctx : Ctx ε) (op : Nat → Option ε)
    (e : Nat → ε) (k : Nat) : Prop :=
  ctx.errAtCheck k = none ∧ op k = some (e k) ∧
    r.retryConditionFunc (e k) = true ∧ (k : Int) ≠ r.retryCount - 1 ∧
    0 < computeBackoff r k ∧ ctx.doneDuringWait k = false

/-- A loop iteration that is cancelled at the top-of-loop check returns the
cancellation error without invoking the operation. -/
theorem retryLoop_cancel {ε L : Type} (r : Retryer ε L) (ctx : Ctx ε)
    (op : Nat → Option ε) (randStream : Nat → Nat) (fuel a : Nat) (errc : Option ε)
    (inv : Nat) (logs : List (Nat × Int × ε)) (waits : List Nat) (c : ε)
    (h1 : ctx.errAtCheck a = some c) :
    retryLoop r ctx op randStream (fuel + 1) a errc inv logs waits =
      ⟨.ret (some c), inv, logs, waits⟩ := by
  simp [retryLoop, h1]

/-- A loop iteration whose invocation succeeds returns `nil` at once, with
no log line and no wait. -/
theorem retryLoop_success {ε L : Type} (r : Retryer ε L) (ctx : Ctx ε)
    (op : Nat → Option ε) (randStream : Nat → Nat) (fuel a : Nat) (errc : Option ε)
    (inv : Nat) (logs : List (Nat × Int × ε)) (waits : List Nat)
    (h1 : ctx.errAtCheck a = none) (h2 : op a = none) :
    retryLoop r ctx op randStream (fuel + 1) a errc inv logs waits =
      ⟨.ret none, inv + 1, logs, waits⟩ := by
  simp [retryLoop, h1, h2]

/-- A loop iteration whose invocation fails with an error the predicate
rejects returns that error at once, with no log line and no wait. -/
theorem retryLoop_nonretryable {ε L : Type} (r : Retryer ε L) (ctx : Ctx ε)
    (op : Nat → Option ε) (randStream : Nat → Nat) (fuel a : Nat) (errc : Option ε)
    (inv : Nat) (logs : List (Nat × Int × ε)) (waits : List Nat) (er : ε)
    (h1 : ctx.errAtCheck a = none) (h2 : op a = some er)
    (h3 : r.retryConditionFunc er = false) :
    retryLoop r ctx op randStream (fuel + 1) a errc inv logs waits =
      ⟨.ret (some er), inv + 1, logs, waits⟩ := by
  simp [retryLoop, h1, h2, h3]

/-- The last allowed loop iteration, failing with a retryable error, logs a
line and returns that error with no wait. -/
theorem retryLoop_final {ε L : Type} (r : Retryer ε L) (ctx : Ctx ε)
    (op : Nat → Option ε) (randStream : Nat → Nat) (fuel a : Nat) (errc : Option ε)
    (inv : Nat) (logs : List (Nat × Int × ε)) (waits : List Nat) (er : ε)
    (h1 : ctx.errAtCheck a = none) (h2 : op a = some er)
    (h3 : r.retryConditionFunc er = true) (h4 : (a : Int) = r.retryCount - 1) :
    retryLoop r ctx op randStream (fuel + 1) a errc inv logs waits =
      ⟨.ret (some er), inv + 1, logs ++ [(a + 1, r.retryCount, er)], waits⟩ := by
  simp [retryLoop, h1, h2, h3, h4]

/-- A non-final loop iteration failing with a retryable error whose computed
backoff is not positive panics inside `rand.Int63n`. -/
theorem retryLoop_panic {ε L : Type} (r : Retryer ε L) (ctx : Ctx ε)
    (op : Nat → Option ε) (randStream : Nat → Nat) (fuel a : Nat) (errc : Option ε)
    (inv : Nat) (logs : List (Nat × Int × ε)) (waits : List Nat) (er : ε)
    (h1 : ctx.errAtCheck a = none) (h2 : op a = some er)
    (h3 : r.retryConditionFunc er = true) (h4 : (a : Int) ≠ r.retryCount - 1)
    (h5 : computeBackoff r a ≤ 0) :
    retryLoop r ctx op randStream (fuel + 1) a errc inv logs waits =
      ⟨.panicked, inv + 1, logs ++ [(a + 1, r.retryCount, er)], waits⟩ := by
  simp [retryLoop, int63n, h1, h2, h3, h4, h5]

/-- A non-final loop iteration failing with a retryable error, whose wait is
interrupted by the cancellation signal, returns the context's error. -/
theorem retryLoop_doneWait {ε L : Type} (r : Retryer ε L) (ctx : Ctx ε)
    (op : Nat → Option ε) (randStream : Nat → Nat) (fuel a : Nat) (errc : Option ε)
    (inv : Nat) (logs : List (Nat × Int × ε)) (waits : List Nat) (er : ε)
    (h1 : ctx.errAtCheck a = none) (h2 : op a = some er)
    (h3 : r.retryConditionFunc er = true) (h4 : (a : Int) ≠ r.retryCount - 1)
    (h5 : 0 < computeBackoff r a) (h6 : ctx.doneDuringWait a = true) :
    retryLoop r ctx op randStream (fuel + 1) a errc inv logs waits =
      ⟨.ret (ctx.errAtWait a), inv + 1,
        logs ++ [(a + 1, r.retryCount, er)], waits ++ [a]⟩ := by
  have h5' : ¬ computeBackoff r a ≤ 0 := not_le.2 h5
  simp [retryLoop, int63n, h1, h2, h3, h4, h5', h6]

/-- A non-final loop iteration failing with a retryable error, with a
positive backoff and an uninterrupted wait, proceeds to the next iteration
carrying that error, one more invocation, one more log line and one more
wait site. -/
theorem retryLoop_step {ε L : Type} (r : Retryer ε L) (ctx : Ctx ε)
    (op : Nat → Option ε) (randStream : Nat → Nat) (fuel a : Nat) (errc : Option ε)
    (inv : Nat) (logs : List (Nat × Int × ε)) (waits : List Nat) (er : ε)
    (h1 : ctx.errAtCheck a = none) (h2 : op a = some er)
    (h3 : r.retryConditionFunc er = true) (h4 : (a : Int) ≠ r.retryCount - 1)
    (h5 : 0 < computeBackoff r a) (h6 : ctx.doneDuringWait a = false) :
    retryLoop r ctx op randStream (fuel + 1) a errc inv logs waits =
      retryLoop r ctx op randStream fuel (a + 1) (some er) (inv + 1)
        (logs ++ [(a + 1, r.retryCount, er)]) (waits ++ [a]) := by
  have h5' : ¬ computeBackoff r a ≤ 0 := not_le.2 h5
  simp [retryLoop, int63n, h1, h2, h3, h4, h5', h6]

/-- Running the loop across `d` consecutive failed, retryable, non-final
attempts accumulates `d` invocations, `d` log lines and `d` wait sites and
arrives at attempt `a + d` carrying the most recent error. -/
theorem retryLoop_steps {ε L : Type} (r : Retryer ε L) (ctx : Ctx ε)
    (op : Nat → Option ε) (randStream : Nat → Nat) (e : Nat → ε) :
    ∀ (d a fuel : Nat) (errc : Option ε) (inv : Nat)
      (logs : List (Nat × Int × ε)) (waits : List Nat),
      (∀ k, a ≤ k → k < a + d → StepsThrough r ctx op e k) → d ≤ fuel →
      retryLoop r ctx op randStream fuel a errc inv logs waits =
        retryLoop r ctx op randStream (fuel - d) (a + d)
          (if d = 0 then errc else some (e (a + d - 1))) (inv + d)
          (logs ++ logsFor r.retryCount e a d) (waits ++ waitsFor a d) := by
  intro d
  induction d with
  | zero =>
    intro a fuel errc inv logs waits _ _
    simp [logsFor, waitsFor]
  | succ d ih =>
    intro a fuel errc inv logs waits h hd
    obtain ⟨f, rfl⟩ : ∃ f, fuel = f + 1 := ⟨fuel - 1, by omega⟩
    obtain ⟨h1, h2, h3, h4, h5, h6⟩ := h a (le_refl a) (by omega)
    rw [retryLoop_step r ctx op randStream f a errc inv logs waits (e a) h1 h2 h3 h4 h5 h6,
      ih (a + 1) f (some (e a)) (inv + 1) _ _
        (fun k hk1 hk2 => h k (by omega) (by omega)) (by omega)]
    have e4 : (if d = 0 then some (e a) else some (e (a + 1 + d - 1)))
        = some (e (a + (d + 1) - 1)) := by
      rcases d with _ | d
      · simp
      · simp only [Nat.succ_ne_zero, if_false]
        congr 2
        omega
    have e1 : f + 1 - (d + 1) = f - d := by omega
    have e2 : a + 1 + d = a + (d + 1) := by omega
    have e3 : inv + 1 + d = inv + (d + 1) := by omega
    rw [e4, e1, e2, e3]
    simp [logsFor, waitsFor, List.append_assoc]

/-- Every accumulated log line for attempts `a .. a+d-1` carries a 1-based
attempt index in `[a+1, a+d]` and the configured budget. -/
theorem mem_logsFor {ε : Type} (cnt : Int) (e : Nat → ε) :
    ∀ (d a : Nat) (p : Nat × Int × ε), p ∈ logsFor cnt e a d →
      a + 1 ≤ p.1 ∧ p.1 ≤ a + d ∧ p.2.1 = cnt := by
  intro d
  induction d with
  | zero =>
    intro a p hp
    simp [logsFor] at hp
  | succ d ih =>
    intro a p hp
    simp only [logsFor, List.mem_cons] at hp
    rcases hp with rfl | hp
    · exact ⟨by omega, by omega, rfl⟩
    · obtain ⟨hp1, hp2, hp3⟩ := ih (a + 1) p hp
      exact ⟨by omega, by omega, hp3⟩

/-- Every accumulated wait site for attempts `a .. a+d-1` lies in
`[a, a+d)`. -/
theorem mem_waitsFor :
    ∀ (d a w : Nat), w ∈ waitsFor a d → a ≤ w ∧ w < a + d := by
  intro d
  induction d with
  | zero =>
    intro a w hw
    simp [waitsFor] at hw
  | succ d ih =>
    intro a w hw
    simp only [waitsFor, List.mem_cons] at hw
    rcases hw with rfl | hw
    · omega
    · have := ih (a + 1) w hw
      omega

/-- Appending the final attempt's log line extends the log-line list by one
attempt. -/
theorem logsFor_snoc {ε : Type} (cnt : Int) (e : Nat → ε) :
    ∀ (d a : Nat),
      logsFor cnt e a d ++ [(a + d + 1, cnt, e (a + d))] = logsFor cnt e a (d + 1) := by
  intro d
  induction d with
  | zero =>
    intro a
    simp [logsFor]
  | succ d ih =>
    intro a
    have e1 : a + (d + 1) = a + 1 + d := by omega
    simp only [logsFor, List.cons_append, e1]
    rw [ih (a + 1)]
    simp [logsFor]

/-- The first projection of `Retry` is the loop run on `retryCount.toNat`
fuel from attempt 0 with a `nil` carried error and empty accumulators. -/
theorem Retry_fst {ε L : Type} (r : Retryer ε L) (ctx : Ctx ε) (op : Nat → Option ε)
    (randStream : Nat → Nat) (N : Nat) (hcnt : r.retryCount = N) :
    (Retry r ctx op randStream).1 =
      retryLoop r ctx op randStream N 0 none 0 [] [] := by
  simp [Retry, hcnt]

/-- C1: For every executor with attempt budget N ≥ 1 and every operation that
fails on every invocation with an error the retry predicate accepts — the
cancellation signal never firing and every computed backoff being positive,
so the zero-backoff panic path (reported separately) is not taken — `Retry`
invokes the operation exactly N times and returns the error produced by the
Nth invocation, unmodified. -/
theorem retry_allFail_returns_nth_error {ε L : Type} (r : Retryer ε L) (ctx : Ctx ε)
    (op : Nat → Option ε) (randStream : Nat → Nat) (N : Nat) (e : Nat → ε)
    (hN : 1 ≤ N) (hcnt : r.retryCount = N)
    (hop : ∀ k, k < N → op k = some (e k))
    (hcond : ∀ k, k < N → r.retryConditionFunc (e k) = true)
    (hctx : ∀ k, k < N → ctx.errAtCheck k = none)
    (hdone : ∀ k, k < N - 1 → ctx.doneDuringWait k = false)
    (hback : ∀ k, k < N - 1 → 0 < computeBackoff r k) :
    (Retry r ctx op randStream).1.result = .ret (some (e (N - 1))) ∧
      (Retry r ctx op randStream).1.invocations = N := by
  have hsteps : ∀ k, 0 ≤ k → k < 0 + (N - 1) → StepsThrough r ctx op e k := by
    intro k _ hk
    exact ⟨hctx k (by omega), hop k (by omega), hcond k (by omega),
      by rw [hcnt]; omega, hback k (by omega), hdone k (by omega)⟩
  rw [Retry_fst r ctx op randStream N hcnt,
    retryLoop_steps r ctx op randStream e (N - 1) 0 N none 0 [] [] hsteps (by omega)]
  have hone : N - (N - 1) = 0 + 1 := by omega
  have hzero : 0 + (N - 1) = N - 1 := by omega
  rw [hone, hzero,
    retryLoop_final r ctx op randStream 0 (N - 1) _ _ _ _ (e (N - 1))
      (hctx (N - 1) (by omega)) (hop (N - 1) (by omega)) (hcond (N - 1) (by omega))
      (by rw [hcnt]; omega)]
  refine ⟨rfl, ?_⟩
  show N - 1 + 1 = N
  omega

/-- C1 witness: with the budget-3 executor, a never-cancelling context and an
operation always failing with retryable error 7, `Retry` makes 3 invocations
and returns error 7. -/
theorem retry_allFail_returns_nth_error_witness :
    (Retry exRetryer exCtx (fun _ => some 7) (fun _ => 0)).1.result = .ret (some 7) ∧
      (Retry exRetryer exCtx (fun _ => some 7) (fun _ => 0)).1.invocations = 3 :=
  retry_allFail_returns_nth_error exRetryer exCtx (fun _ => some 7) (fun _ => 0) 3
    (fun _ => 7) (by decide) rfl (fun _ _ => rfl) (fun _ _ => rfl) (fun _ _ => rfl)
    (fun _ _ => rfl) (by decide)

/-- C2: For every executor with budget N and every operation whose first
k-1 invocations fail retryably and whose k-th invocation succeeds
(k ≤ N), with a non-expired cancellation signal and positive computed
backoffs, `Retry` invokes the operation exactly k times, returns success
(`nil`), and enters no inter-attempt wait after the successful attempt:
every wait site precedes attempt index k-1. -/
theorem retry_success_at_kth {ε L : Type} (r : Retryer ε L) (ctx : Ctx ε)
    (op : Nat → Option ε) (randStream : Nat → Nat) (N k : Nat) (e : Nat → ε)
    (hk : 1 ≤ k) (hkN : k ≤ N) (hcnt : r.retryCount = N)
    (hop : ∀ j, j < k - 1 → op j = some (e j))
    (hsucc : op (k - 1) = none)
    (hcond : ∀ j, j < k - 1 → r.retryConditionFunc (e j) = true)
    (hctx : ∀ j, j < k → ctx.errAtCheck j = none)
    (hdone : ∀ j, j < k - 1 → ctx.doneDuringWait j = false)
    (hback : ∀ j, j < k - 1 → 0 < computeBackoff r j) :
    (Retry r ctx op randStream).1.result = .ret none ∧
      (Retry r ctx op randStream).1.invocations = k ∧
      (Retry r ctx op randStream).1.waits = waitsFor 0 (k - 1) ∧
      ∀ w ∈ (Retry r ctx op randStream).1.waits, w + 2 ≤ k := by
  have hsteps : ∀ j, 0 ≤ j → j < 0 + (k - 1) → StepsThrough r ctx op e j := by
    intro j _ hj
    exact ⟨hctx j (by omega), hop j (by omega), hcond j (by omega),
      by rw [hcnt]; omega, hback j (by omega), hdone j (by omega)⟩
  rw [Retry_fst r ctx op randStream N hcnt,
    retryLoop_steps r ctx op randStream e (k - 1) 0 N none 0 [] [] hsteps (by omega)]
  have hone : N - (k - 1) = (N - k) + 1 := by omega
  have hzero : 0 + (k - 1) = k - 1 := by omega
  rw [hone, hzero,
    retryLoop_success r ctx op randStream (N - k) (k - 1) _ _ _ _
      (hctx (k - 1) (by omega)) hsucc]
  refine ⟨rfl, by show k - 1 + 1 = k; omega, by simp, ?_⟩
  intro w hw
  simp only [List.nil_append] at hw
  have := mem_waitsFor (k - 1) 0 w hw
  omega

/-- C2 witness: with the budget-3 executor and an operation failing once
with retryable error 7 and succeeding on its 2nd invocation, `Retry` makes
2 invocations, returns success, and the only wait precedes the successful
attempt. -/
theorem retry_success_at_kth_witness :
    (Retry exRetryer exCtx (fun j => if j < 1 then some 7 else none) (fun _ => 0)).1.result
        = .ret none ∧
      (Retry exRetryer exCtx (fun j => if j < 1 then some 7 else none)
        (fun _ => 0)).1.invocations = 2 ∧
      (Retry exRetryer exCtx (fun j => if j < 1 then some 7 else none)
        (fun _ => 0)).1.waits = waitsFor 0 1 ∧
      ∀ w ∈ (Retry exRetryer exCtx (fun j => if j < 1 then some 7 else none)
        (fun _ => 0)).1.waits, w + 2 ≤ 2 :=
  retry_success_at_kth exRetryer exCtx (fun j => if j < 1 then some 7 else none)
    (fun _ => 0) 3 2 (fun _ => 7) (by decide) (by decide) rfl
    (by decide) (by decide) (by decide) (fun _ _ => rfl) (by decide) (by decide)

/-- C5: For every executor and operation whose first j-1 invocations fail
with retryable errors and whose j-th invocation (j ≤ N) fails with an error
the predicate rejects, `Retry` stops after exactly j invocations and
returns that error unchanged, with no wait entered and no diagnostic line
emitted for that failure: logs and waits cover attempts before index j-1
only. With j = 1 this gives exactly 1 invocation regardless of the
budget. -/
theorem retry_nonretryable_stops {ε L : Type} (r : Retryer ε L) (ctx : Ctx ε)
    (op : Nat → Option ε) (randStream : Nat → Nat) (N j : Nat) (e : Nat → ε) (er : ε)
    (hj : 1 ≤ j) (hjN : j ≤ N) (hcnt : r.retryCount = N)
    (hop : ∀ i, i < j - 1 → op i = some (e i))
    (hcond : ∀ i, i < j - 1 → r.retryConditionFunc (e i) = true)
    (hopj : op (j - 1) = some er)
    (hcondj : r.retryConditionFunc er = false)
    (hctx : ∀ i, i < j → ctx.errAtCheck i = none)
    (hdone : ∀ i, i < j - 1 → ctx.doneDuringWait i = false)
    (hback : ∀ i, i < j - 1 → 0 < computeBackoff r i) :
    (Retry r ctx op randStream).1.result = .ret (some er) ∧
      (Retry r ctx op randStream).1.invocations = j ∧
      (Retry r ctx op randStream).1.logs = logsFor r.retryCount e 0 (j - 1) ∧
      (Retry r ctx op randStream).1.waits = waitsFor 0 (j - 1) ∧
      (∀ p ∈ (Retry r ctx op randStream).1.logs, p.1 + 1 ≤ j) ∧
      ∀ w ∈ (Retry r ctx op randStream).1.waits, w + 2 ≤ j := by
  have hsteps : ∀ i, 0 ≤ i → i < 0 + (j - 1) → StepsThrough r ctx op e i := by
    intro i _ hi
    exact ⟨hctx i (by omega), hop i (by omega), hcond i (by omega),
      by rw [hcnt]; omega, hback i (by omega), hdone i (by omega)⟩
  rw [Retry_fst r ctx op randStream N hcnt,
    retryLoop_steps r ctx op randStream e (j - 1) 0 N none 0 [] [] hsteps (by omega)]
  have hone : N - (j - 1) = (N - j) + 1 := by omega
  have hzero : 0 + (j - 1) = j - 1 := by omega
  rw [hone, hzero,
    retryLoop_nonretryable r ctx op randStream (N - j) (j - 1) _ _ _ _ er
      (hctx (j - 1) (by omega)) hopj hcondj]
  refine ⟨rfl, by show j - 1 + 1 = j; omega, by simp, by simp, ?_, ?_⟩
  · intro p hp
    simp only [List.nil_append] at hp
    have := mem_logsFor r.retryCount e (j - 1) 0 p hp
    omega
  · intro w hw
    simp only [List.nil_append] at hw
    have := mem_waitsFor (j - 1) 0 w hw
    omega

/-- C5 witness: the spec's concrete scenario — budget 4, predicate accepting
only error 9, operation returning 9 twice then 5 — gives exactly 3
invocations, returns error 5 unchanged, and logs and waits cover attempts
1 and 2 only. -/
theorem retry_nonretryable_stops_witness :
    (Retry exRetryerSpecific exCtx (fun i => if i < 2 then some 9 else some 5)
        (fun _ => 0)).1.result = .ret (some 5) ∧
      (Retry exRetryerSpecific exCtx (fun i => if i < 2 then some 9 else some 5)
        (fun _ => 0)).1.invocations = 3 ∧
      (Retry exRetryerSpecific exCtx (fun i => if i < 2 then some 9 else some 5)
        (fun _ => 0)).1.logs = logsFor exRetryerSpecific.retryCount (fun _ => 9) 0 2 ∧
      (Retry exRetryerSpecific exCtx (fun i => if i < 2 then some 9 else some 5)
        (fun _ => 0)).1.waits = waitsFor 0 2 ∧
      (∀ p ∈ (Retry exRetryerSpecific exCtx (fun i => if i < 2 then some 9 else some 5)
        (fun _ => 0)).1.logs, p.1 + 1 ≤ 3) ∧
      ∀ w ∈ (Retry exRetryerSpecific exCtx (fun i => if i < 2 then some 9 else some 5)
        (fun _ => 0)).1.waits, w + 2 ≤ 3 :=
  retry_nonretryable_stops exRetryerSpecific exCtx
    (fun i => if i < 2 then some 9 else some 5) (fun _ => 0) 4 3 (fun _ => 9) 5
    (by decide) (by decide) rfl (by decide) (by decide) (by decide) (by decide)
    (by decide) (by decide) (by decide)

/-- C6: For every executor, if the cancellation signal is observed at the
top-of-loop check of iteration n (with the loop having stepped through the
first n attempts as failed retryable waits, and n within the budget),
`Retry` returns the cancellation error having invoked the operation exactly
n times; in particular with n = 0 — the signal already expired at call
time — the operation is invoked zero times. -/
theorem retry_cancelled_at_check {ε L : Type} (r : Retryer ε L) (ctx : Ctx ε)
    (op : Nat → Option ε) (randStream : Nat → Nat) (N n : Nat) (e : Nat → ε) (c : ε)
    (hn : n < N) (hcnt : r.retryCount = N)
    (hsteps : ∀ k, k < n → StepsThrough r ctx op e k)
    (hc : ctx.errAtCheck n = some c) :
    (Retry r ctx op randStream).1.result = .ret (some c) ∧
      (Retry r ctx op randStream).1.invocations = n := by
  rw [Retry_fst r ctx op randStream N hcnt,
    retryLoop_steps r ctx op randStream e n 0 N none 0 [] []
      (fun k _ hk => hsteps k (by omega)) (by omega)]
  have hone : N - n = (N - n - 1) + 1 := by omega
  have hzero : 0 + n = n := by omega
  rw [hone, hzero,
    retryLoop_cancel r ctx op randStream (N - n - 1) n _ _ _ _ c hc]
  exact ⟨rfl, rfl⟩

/-- C6 witness: with the budget-3 executor and a context already expired
with error 9, `Retry` returns error 9 and the operation runs zero times. -/
theorem retry_cancelled_at_check_witness :
    (Retry exRetryer exCtxCancelled (fun _ => some 7) (fun _ => 0)).1.result
        = .ret (some 9) ∧
      (Retry exRetryer exCtxCancelled (fun _ => some 7) (fun _ => 0)).1.invocations = 0 :=
  retry_cancelled_at_check exRetryer exCtxCancelled (fun _ => some 7) (fun _ => 0) 3 0
    (fun _ => 0) 9 (by decide) rfl (fun k hk => absurd hk (Nat.not_lt_zero k)) rfl

/-- C7: If the cancellation signal fires while `Retry` is waiting out the
backoff after failed retryable attempt n (not the last allowed attempt, the
loop having stepped through the first n attempts), `Retry` returns the
context's cancellation error — instead of the operation's most recent
error — after exactly n+1 invocations. -/
theorem retry_cancelled_during_wait {ε L : Type} (r : Retryer ε L) (ctx : Ctx ε)
    (op : Nat → Option ε) (randStream : Nat → Nat) (N n : Nat) (e : Nat → ε) (er : ε)
    (hn : n + 1 < N) (hcnt : r.retryCount = N)
    (hsteps : ∀ k, k < n → StepsThrough r ctx op e k)
    (h1 : ctx.errAtCheck n = none) (h2 : op n = some er)
    (h3 : r.retryConditionFunc er = true)
    (h5 : 0 < computeBackoff r n) (h6 : ctx.doneDuringWait n = true) :
    (Retry r ctx op randStream).1.result = .ret (ctx.errAtWait n) ∧
      (Retry r ctx op randStream).1.invocations = n + 1 := by
  rw [Retry_fst r ctx op randStream N hcnt,
    retryLoop_steps r ctx op randStream e n 0 N none 0 [] []
      (fun k _ hk => hsteps k (by omega)) (by omega)]
  have hone : N - n = (N - n - 1) + 1 := by omega
  have hzero : 0 + n = n := by omega
  rw [hone, hzero,
    retryLoop_doneWait r ctx op randStream (N - n - 1) n _ _ _ _ er h1 h2 h3
      (by rw [hcnt]; omega) h5 h6]
  exact ⟨rfl, rfl⟩

/-- C7 witness: with the budget-3 executor and a context firing during the
wait after the first failed attempt (reporting error 4), `Retry` returns
error 4 — not the operation's error 7 — after exactly 1 invocation. -/
theorem retry_cancelled_during_wait_witness :
    (Retry exRetryer exCtxWaitCancel (fun _ => some 7) (fun _ => 0)).1.result
        = .ret (some 4) ∧
      (Retry exRetryer exCtxWaitCancel (fun _ => some 7) (fun _ => 0)).1.invocations = 1 :=
  retry_cancelled_during_wait exRetryer exCtxWaitCancel (fun _ => some 7) (fun _ => 0)
    3 0 (fun _ => 0) 7 (by decide) rfl (fun k hk => absurd hk (Nat.not_lt_zero k))
    rfl rfl rfl (by decide) rfl

/-- C3 counterexample: with budget N = 1 and an operation failing retryably,
the code does write a diagnostic line after the final (Nth) failed attempt:
the log is `[(1, 1, 7)]`, refuting "lines are emitted after attempts 1..N-1
inclusive only" (which predicts an empty log for N = 1). -/
theorem retry_log_after_final_attempt_cex :
    (Retry exRetryerOne exCtx (fun _ => some 7) (fun _ => 0)).1.logs = [(1, 1, 7)] ∧
      ¬ (∀ p ∈ (Retry exRetryerOne exCtx (fun _ => some 7) (fun _ => 0)).1.logs,
          p.1 ≤ 0) := by
  constructor
  · decide
  · decide

/-- C3 (amended): a diagnostic line is written after every failed retryable
attempt, including the final (Nth): with budget N and an always-failing
retryable operation, lines are emitted after attempts 1..N inclusive, each
carrying the 1-based attempt index and the budget, while with an operation
succeeding on attempt k, lines are emitted after attempts 1..k-1 only — none
after the successful attempt. -/
theorem retry_logs_characterization {ε L : Type} (r : Retryer ε L) (ctx : Ctx ε)
    (opF opS : Nat → Option ε) (randStream : Nat → Nat) (N k : Nat)
    (eF eS : Nat → ε)
    (hN : 1 ≤ N) (hcnt : r.retryCount = N)
    (hopF : ∀ i, i < N → opF i = some (eF i))
    (hcondF : ∀ i, i < N → r.retryConditionFunc (eF i) = true)
    (hctx : ∀ i, ctx.errAtCheck i = none)
    (hdone : ∀ i, ctx.doneDuringWait i = false)
    (hbackF : ∀ i, i < N - 1 → 0 < computeBackoff r i)
    (hk : 1 ≤ k) (hkN : k ≤ N)
    (hopS : ∀ i, i < k - 1 → opS i = some (eS i))
    (hsuccS : opS (k - 1) = none)
    (hcondS : ∀ i, i < k - 1 → r.retryConditionFunc (eS i) = true)
    (hbackS : ∀ i, i < k - 1 → 0 < computeBackoff r i) :
    (Retry r ctx opF randStream).1.logs = logsFor r.retryCount eF 0 N ∧
      (∀ p ∈ (Retry r ctx opF randStream).1.logs,
        1 ≤ p.1 ∧ p.1 ≤ N ∧ p.2.1 = r.retryCount) ∧
      (Retry r ctx opS randStream).1.logs = logsFor r.retryCount eS 0 (k - 1) ∧
      ∀ p ∈ (Retry r ctx opS randStream).1.logs, p.1 + 1 ≤ k := by
  have hstepsF : ∀ i, 0 ≤ i → i < 0 + (N - 1) → StepsThrough r ctx opF eF i := by
    intro i _ hi
    exact ⟨hctx i, hopF i (by omega), hcondF i (by omega),
      by rw [hcnt]; omega, hbackF i (by omega), hdone i⟩
  have hstepsS : ∀ i, 0 ≤ i → i < 0 + (k - 1) → StepsThrough r ctx opS eS i := by
    intro i _ hi
    exact ⟨hctx i, hopS i (by omega), hcondS i (by omega),
      by rw [hcnt]; omega, hbackS i (by omega), hdone i⟩
  have hF : (Retry r ctx opF randStream).1.logs = logsFor r.retryCount eF 0 N := by
    rw [Retry_fst r ctx opF randStream N hcnt,
      retryLoop_steps r ctx opF randStream eF (N - 1) 0 N none 0 [] [] hstepsF
        (by omega)]
    have hone : N - (N - 1) = 0 + 1 := by omega
    have hzero : 0 + (N - 1) = N - 1 := by omega
    rw [hone, hzero,
      retryLoop_final r ctx opF randStream 0 (N - 1) _ _ _ _ (eF (N - 1))
        (hctx (N - 1)) (hopF (N - 1) (by omega)) (hcondF (N - 1) (by omega))
        (by rw [hcnt]; omega)]
    show logsFor r.retryCount eF 0 (N - 1) ++ [(N - 1 + 1, r.retryCount, eF (N - 1))]
        = logsFor r.retryCount eF 0 N
    have hsnoc := logsFor_snoc r.retryCount eF (N - 1) 0
    have h01 : 0 + (N - 1) = N - 1 := by omega
    rw [h01] at hsnoc
    rw [hsnoc]
    congr 1
    omega
  have hS : (Retry r ctx opS randStream).1.logs
      = logsFor r.retryCount eS 0 (k - 1) := by
    rw [Retry_fst r ctx opS randStream N hcnt,
      retryLoop_steps r ctx opS randStream eS (k - 1) 0 N none 0 [] [] hstepsS
        (by omega)]
    have hone : N - (k - 1) = (N - k) + 1 := by omega
    have hzero : 0 + (k - 1) = k - 1 := by omega
    rw [hone, hzero,
      retryLoop_success r ctx opS randStream (N - k) (k - 1) _ _ _ _
        (hctx (k - 1)) hsuccS]
    show [] ++ logsFor r.retryCount eS 0 (k - 1) = logsFor r.retryCount eS 0 (k - 1)
    simp
  refine ⟨hF, ?_, hS, ?_⟩
  · intro p hp
    rw [hF] at hp
    have := mem_logsFor r.retryCount eF N 0 p hp
    exact ⟨by omega, by omega, this.2.2⟩
  · intro p hp
    rw [hS] at hp
    have := mem_logsFor r.retryCount eS (k - 1) 0 p hp
    omega

/-- C3 (amended) witness: with the budget-3 executor, an operation always
failing with error 7 produces log lines for attempts 1, 2 and 3 — including
the final one — while an operation failing once and then succeeding
produces a line for attempt 1 only. -/
theorem retry_logs_characterization_witness :
    (Retry exRetryer exCtx (fun _ => some 7) (fun _ => 0)).1.logs
        = logsFor exRetryer.retryCount (fun _ => 7) 0 3 ∧
      (∀ p ∈ (Retry exRetryer exCtx (fun _ => some 7) (fun _ => 0)).1.logs,
        1 ≤ p.1 ∧ p.1 ≤ 3 ∧ p.2.1 = exRetryer.retryCount) ∧
      (Retry exRetryer exCtx (fun j => if j < 1 then some 7 else none)
        (fun _ => 0)).1.logs = logsFor exRetryer.retryCount (fun _ => 7) 0 1 ∧
      ∀ p ∈ (Retry exRetryer exCtx (fun j => if j < 1 then some 7 else none)
        (fun _ => 0)).1.logs, p.1 + 1 ≤ 2 :=
  retry_logs_characterization exRetryer exCtx (fun _ => some 7)
    (fun j => if j < 1 then some 7 else none) (fun _ => 0) 3 2
    (fun _ => 7) (fun _ => 7) (by decide) rfl (by decide) (by decide)
    (fun _ => rfl) (fun _ => rfl) (by decide) (by decide) (by decide)
    (by decide) (by decide) (by decide) (by decide)

/-- C4: at the failing input — baseDelay 0, budget 2, an operation failing
with a retryable error — the computed backoff is 0 and the jitter
computation draws from the empty range: `rand.Int63n(0)` panics, so the run
does not proceed with a zero wait as the spec requires. -/
theorem retry_zero_backoff_panics :
    computeBackoff exRetryerZeroDelay 0 = 0 ∧
      (Retry exRetryerZeroDelay exCtx (fun _ => some 7) (fun _ => 3)).1.result
        = .panicked := by
  constructor
  · decide
  · decide

/-- Values in `[-2^63, 2^63)` are fixed points of the `int64` wrap. -/
theorem wrap64_eq_of_bounds (x : Int) (h1 : -(2 ^ 63) ≤ x) (h2 : x < 2 ^ 63) :
    wrap64 x = x := by
  unfold wrap64
  have e1 : (2 : Int) ^ 64 = 2 ^ 63 + 2 ^ 63 := by norm_num
  have h3 : 0 ≤ x + 2 ^ 63 := by omega
  have h4 : x + 2 ^ 63 < 2 ^ 64 := by omega
  rw [Int.emod_eq_of_lt h3 h4]
  omega

/-- C8: in the overflow-free range (a non-negative base delay whose doubled product stays below 2^63), the
computed backoff for attempt i equals `min(baseDelay * 2^i, maxDelay)`, so
it never exceeds `maxDelay` and is monotonically non-decreasing in i; and
whenever the backoff is positive the drawn jitter — the realized wait — lies
in the half-open interval `[0, min(baseDelay * 2^i, maxDelay))`. -/
theorem computeBackoff_spec {ε L : Type} (r : Retryer ε L) (i : Nat)
    (randStream : Nat → Nat) (idx : Nat)
    (hb : 0 ≤ r.baseDelay) (hof : r.baseDelay * 2 ^ (i + 1) < 2 ^ 63) :
    computeBackoff r i = min (r.baseDelay * 2 ^ i) r.maxDelay ∧
      computeBackoff r i ≤ r.maxDelay ∧
      computeBackoff r i ≤ computeBackoff r (i + 1) ∧
      (0 < computeBackoff r i →
        0 ≤ (randStream idx : Int) % computeBackoff r i ∧
          (randStream idx : Int) % computeBackoff r i
            < min (r.baseDelay * 2 ^ i) r.maxDelay ∧
          int63n randStream idx (computeBackoff r i)
            = some ((randStream idx : Int) % computeBackoff r i)) := by
  have hpow : (0 : Int) < 2 ^ i := by positivity
  have hbi : 0 ≤ r.baseDelay * 2 ^ i := mul_nonneg hb (le_of_lt hpow)
  have hle : r.baseDelay * 2 ^ i ≤ r.baseDelay * 2 ^ (i + 1) := by
    apply mul_le_mul_of_nonneg_left _ hb
    apply pow_le_pow_right₀ (by norm_num)
    omega
  have hw1 : wrap64 (r.baseDelay * 2 ^ i) = r.baseDelay * 2 ^ i :=
    wrap64_eq_of_bounds _ (by omega) (lt_of_le_of_lt hle hof)
  have hw2 : wrap64 (r.baseDelay * 2 ^ (i + 1)) = r.baseDelay * 2 ^ (i + 1) :=
    wrap64_eq_of_bounds _
      (by have : 0 ≤ r.baseDelay * 2 ^ (i + 1) := le_trans hbi hle; omega) hof
  have hcb : computeBackoff r i = min (r.baseDelay * 2 ^ i) r.maxDelay := by
    unfold computeBackoff
    rw [hw1]
  refine ⟨hcb, ?_, ?_, ?_⟩
  · rw [hcb]
    exact min_le_right _ _
  · unfold computeBackoff
    rw [hw1, hw2]
    exact min_le_min hle (le_refl _)
  · intro hpos
    have hne : computeBackoff r i ≠ 0 := ne_of_gt hpos
    refine ⟨Int.emod_nonneg _ hne, ?_, ?_⟩
    · rw [← hcb]
      exact Int.emod_lt_of_pos _ hpos
    · unfold int63n
      rw [if_neg (not_le.2 hpos)]

/-- C8 witness: for the budget-3 executor (baseDelay 100, maxDelay 800) at
attempt 1, the computed backoff is `min(200, 800) = 200`, it is at most the
maximum delay and at most the next attempt's backoff, and the jitter drawn
from stream value 37 is 37, inside `[0, 200)`. -/
theorem computeBackoff_spec_witness :
    computeBackoff exRetryer 1 = min (exRetryer.baseDelay * 2 ^ 1) exRetryer.maxDelay ∧
      computeBackoff exRetryer 1 ≤ exRetryer.maxDelay ∧
      computeBackoff exRetryer 1 ≤ computeBackoff exRetryer (1 + 1) ∧
      (0 < computeBackoff exRetryer 1 →
        0 ≤ ((37 : Nat) : Int) % computeBackoff exRetryer 1 ∧
          ((37 : Nat) : Int) % computeBackoff exRetryer 1
            < min (exRetryer.baseDelay * 2 ^ 1) exRetryer.maxDelay ∧
          int63n (fun _ => 37) 0 (computeBackoff exRetryer 1)
            = some (((37 : Nat) : Int) % computeBackoff exRetryer 1)) :=
  computeBackoff_spec exRetryer 1 (fun _ => 37) 0 (by decide) (by decide)

/-- C9 counterexample: `SetCount` accepts a budget of 0 without rejection,
and `Retry` under that budget returns success (`nil`) with zero operation
invocations — a silent success without invoking the operation, so neither
guarding policy (treat as 1, or reject at configuration time) is
implemented. -/
theorem retry_budget_zero_cex :
    (SetCount exRetryer 0).retryCount = 0 ∧
      (Retry (SetCount exRetryer 0) exCtx (fun _ => some 7) (fun _ => 0)).1
        = ⟨.ret none, 0, [], []⟩ := by
  constructor
  · decide
  · decide

/-- C9 (amended): a configured attempt budget below 1 is not guarded
against: `SetCount` stores any value unchanged, and `Retry` under a
non-positive budget performs zero invocations, writes nothing, and silently
returns success. -/
theorem retry_budget_nonpositive {ε L : Type} (r : Retryer ε L) (ctx : Ctx ε)
    (op : Nat → Option ε) (randStream : Nat → Nat) (n : Int)
    (h : r.retryCount ≤ 0) :
    (Retry r ctx op randStream).1 = ⟨.ret none, 0, [], []⟩ ∧
      (SetCount r n).retryCount = n := by
  have h0 : r.retryCount.toNat = 0 := Int.toNat_of_nonpos h
  exact ⟨by simp [Retry, h0, retryLoop], rfl⟩

/-- C9 (amended) witness: the budget-0 executor obtained by `SetCount 0`
yields a silent success with zero invocations, and `SetCount` stores -5
unchanged. -/
theorem retry_budget_nonpositive_witness :
    (Retry (SetCount exRetryer 0) exCtx (fun _ => some 7) (fun _ => 0)).1
        = ⟨.ret none, 0, [], []⟩ ∧
      (SetCount (SetCount exRetryer 0) (-5)).retryCount = -5 :=
  retry_budget_nonpositive (SetCount exRetryer 0) exCtx (fun _ => some 7)
    (fun _ => 0) (-5) (by decide)

/-- C10: `Retry` leaves every configuration field of the executor unchanged
(its state-passing form returns the receiver as-is), and each setter mutates
only its own field(s): `SetConditionFunc` only the predicate, `SetCount`
only the budget, `SetDelay` only the two delays — the logger is never
touched. -/
theorem retry_config_frame {ε L : Type} (r : Retryer ε L) (ctx : Ctx ε)
    (op : Nat → Option ε) (randStream : Nat → Nat) (f : ε → Bool) (n b m : Int) :
    (Retry r ctx op randStream).2 = r ∧
      (SetConditionFunc r f).retryConditionFunc = f ∧
      (SetConditionFunc r f).retryCount = r.retryCount ∧
      (SetConditionFunc r f).baseDelay = r.baseDelay ∧
      (SetConditionFunc r f).maxDelay = r.maxDelay ∧
      (SetConditionFunc r f).logger = r.logger ∧
      (SetCount r n).retryCount = n ∧
      (SetCount r n).retryConditionFunc = r.retryConditionFunc ∧
      (SetCount r n).baseDelay = r.baseDelay ∧
      (SetCount r n).maxDelay = r.maxDelay ∧
      (SetCount r n).logger = r.logger ∧
      (SetDelay r b m).baseDelay = b ∧
      (SetDelay r b m).maxDelay = m ∧
      (SetDelay r b m).retryConditionFunc = r.retryConditionFunc ∧
      (SetDelay r b m).retryCount = r.retryCount ∧
      (SetDelay r b m).logger = r.logger :=
  ⟨rfl, rfl, rfl, rfl, rfl, rfl, rfl, rfl, rfl, rfl, rfl, rfl, rfl, rfl, rfl, rfl⟩

end Retryables
